import Mathlib

/-!
Verification of the `keep-it-focused` webextension background script
(`src/webext/background_script.ts`), shallowly embedded in Lean.

Instants (`Date` values) are modelled as `Int` milliseconds since the epoch.
JavaScript objects that are compared by reference (the `Interval` objects used
as `Map`/`Set` keys across config refresh cycles) are modelled by tagging each
object with a numeric object id `oid`; two objects are the "same" for JS
`Map`/`Set` purposes exactly when their `oid`s agree.
-/

namespace KeepItFocused

/-- Milliseconds thresholds from the top of `background_script.ts`. -/
def ONE_MINUTE_MS : Int := 1000 * 60
def TWO_MINUTES_MS : Int := 1000 * 60 * 2
def THREE_MINUTES_MS : Int := 1000 * 60 * 3
def FOUR_MINUTES_MS : Int := 1000 * 60 * 4
def FIVE_MINUTES_MS : Int := 1000 * 60 * 5

/-- `class Interval { start: Date; end: Date }` — value part.
`Date`s are `Int` milliseconds. -/
structure Interval where
  start : Int
  «end» : Int
deriving Repr, DecidableEq

/-- `Interval.contains(date)`: returns `false` if the date is not contained
within the interval, otherwise the number of milliseconds remaining
(`this.end.valueOf() - date.valueOf()`).  Source:
`if (this.start <= date && this.end > date) return this.end.valueOf() - date.valueOf(); return false;`
`none` models the `false` return. -/
def Interval.contains (i : Interval) (date : Int) : Option Int :=
  if i.start ≤ date ∧ i.«end» > date then some (i.«end» - date) else none

/-- A JS `Interval` *object*: the structural value plus an object identity.
Two objects are identical for JS `Map`/`Set` key purposes iff their `oid`s
coincide.  Every `new Interval(...)` allocates a fresh `oid`. -/
structure IntervalObj where
  oid : Nat
  val : Interval
deriving Repr, DecidableEq

/-! ## JS `Map` with string keys, modelled as an association list
(insertion order preserved, `set` overwrites in place). -/

def mapGet {α : Type} : List (String × α) → String → Option α
  | [], _ => none
  | (k, v) :: rest, d => if k = d then some v else mapGet rest d

def mapSet {α : Type} : List (String × α) → String → α → List (String × α)
  | [], d, v => [(d, v)]
  | (k, v0) :: rest, d, v => if k = d then (d, v) :: rest else (k, v0) :: mapSet rest d v

def mapDelete {α : Type} : List (String × α) → String → List (String × α)
  | [], _ => []
  | (k, v) :: rest, d => if k = d then rest else (k, v) :: mapDelete rest d

/-! ## RuleManager -/

/-- `browser.declarativeNetRequest.Rule`, restricted to the fields the script
touches: `id`, `action.type` and `condition.urlFilter`.  The action type is a
string because `_computeRulesByDomain` inspects rules read back from the
session-rule store, which may hold rules of any action type. -/
structure Rule where
  id : Nat
  actionType : String
  urlFilter : String
deriving Repr, DecidableEq

/-- The regex `/\|\|(.*)/` applied to a url filter: finds the leftmost `||`
and captures everything after it (url filters contain no newline).  Returns
`none` when there is no match; the caller additionally rejects an empty
capture (`!match[1]`), which we fold in here by returning `none` for it. -/
def extractDomain : List Char → Option String
  | '|' :: '|' :: rest => if rest.isEmpty then none else some (String.mk rest)
  | _ :: rest => extractDomain rest
  | [] => none

/-- The body of `_computeRulesByDomain`'s loop: rules whose action type is
not `"block"`, whose url filter is falsy (empty), or whose filter does not
match `/\|\|(.*)/` with a non-empty capture are skipped; otherwise
`rulesByDomain.set(match[1], rule)`. -/
def computeRulesByDomainStep (m : List (String × Rule)) (rule : Rule) :
    List (String × Rule) :=
  if rule.actionType ≠ "block" then m
  else if rule.urlFilter = "" then m
  else
    match extractDomain rule.urlFilter.data with
    | none => m
    | some d => mapSet m d rule

/-- `RuleManager._computeRulesByDomain`: from a list of declarativeNetRequest
rules, compute a map domain => rule. -/
def computeRulesByDomain (rules : List Rule) : List (String × Rule) :=
  rules.foldl computeRulesByDomainStep []

/-- A rule is an active block rule for domain `d`: action type `"block"` and
a url filter in which `/\|\|(.*)/` captures exactly `d` (non-empty). -/
def ruleBlocks (r : Rule) (d : String) : Prop :=
  r.actionType = "block" ∧ extractDomain r.urlFilter.data = some d

/-- The mutable fields of `RuleManager`. -/
structure RMState where
  counter : Nat
  addRules : List Rule
  removeRuleIds : List Nat
  currentRules : List Rule
  currentRulesByDomain : List (String × Rule)
deriving Repr, DecidableEq

/-- `RuleManager.allowDomain(domain)`: if the cached rule map has a rule for
the domain, queue its id for removal; otherwise no-op. -/
def RMState.allowDomain (st : RMState) (domain : String) : RMState :=
  match mapGet st.currentRulesByDomain domain with
  | some rule => { st with removeRuleIds := st.removeRuleIds ++ [rule.id] }
  | none => st

/-- `RuleManager.forbidDomain(domain)`: if the cached rule map already has a
rule for the domain, skip; otherwise push a block rule
`{action: {type: "block"}, condition: {urlFilter: "||" + domain}, id: ++counter}`
onto `_addRules`. -/
def RMState.forbidDomain (st : RMState) (domain : String) : RMState :=
  match mapGet st.currentRulesByDomain domain with
  | some _ => st
  | none =>
    { st with
      counter := st.counter + 1,
      addRules := st.addRules ++
        [{ id := st.counter + 1, actionType := "block", urlFilter := "||" ++ domain }] }

/-- `browser.declarativeNetRequest.updateSessionRules({addRules, removeRuleIds})`:
the session-rule store drops the rules whose ids are listed for removal and
gains the added rules. -/
def updateSessionRules (store : List Rule) (addRules : List Rule)
    (removeRuleIds : List Nat) : List Rule :=
  store.filter (fun r => ¬ removeRuleIds.contains r.id) ++ addRules

/-- Outcome of one `RuleManager.flush()` call: the new in-memory state, the
session-rule store afterwards, whether the external store was written, and
whether the external write raised (rejected). -/
structure FlushOutcome where
  rm : RMState
  store : List Rule
  wrote : Bool
  errored : Bool
deriving Repr, DecidableEq

/-- `RuleManager.flush()`.  The pending queues are moved into a local
`update` and reset *before* the external call; if both queues are empty the
external store is not touched.  `storeOk` models whether
`updateSessionRules` succeeds: when it rejects, the exception propagates
(lines after the `await` never run), with the queues already cleared. -/
def RMState.flush (st : RMState) (store : List Rule) (storeOk : Bool) : FlushOutcome :=
  let update := (st.addRules, st.removeRuleIds)
  let st1 : RMState := { st with addRules := [], removeRuleIds := [] }
  if update.1.length ≠ 0 ∨ update.2.length ≠ 0 then
    if storeOk then
      let store1 := updateSessionRules store update.1 update.2
      { rm := { st1 with currentRules := store1,
                         currentRulesByDomain := computeRulesByDomain store1 },
        store := store1, wrote := true, errored := false }
    else
      { rm := st1, store := store, wrote := false, errored := true }
  else
    { rm := st1, store := store, wrote := false, errored := false }

/-- The pieces of mutable state shared between `RuleManager` and the
session-rule store, plus a counter of how many times the external store was
actually written (`updateSessionRules` calls). -/
structure World where
  rm : RMState
  store : List Rule
  storeWrites : Nat
deriving Repr, DecidableEq

/-- A successful `ruleManager.flush()` seen from the world. -/
def World.rmFlush (w : World) : World :=
  let o := w.rm.flush w.store true
  { rm := o.rm, store := o.store,
    storeWrites := w.storeWrites + (if o.wrote then 1 else 0) }

/-! ## TimeManager -/

/-- The scan at the top of `TimeManager._checkDomain`:
`for (let interval of intervals.keys()) { if (remains = interval.contains(now)) break; }`
— `remains` holds the first truthy `contains` result, and stays falsy when no
interval contains `now` (including when the list is empty). -/
def findRemains : List IntervalObj → Int → Option Int
  | [], _ => none
  | i :: rest, now =>
    match i.val.contains now with
    | some r => some r
    | none => findRemains rest now

/-- The warning ladder of `_checkDomain` (message text and progress), applied
when the domain is permitted.  `none` models `message` staying undefined
(no notification; `remains` is at least five minutes).  The `< FIVE_MINUTES_MS`
branch really says "two minute" in the source. -/
def warningMessage (remains : Int) (domain : String) : Option (String × Nat) :=
  if remains < ONE_MINUTE_MS then
    some ("Less than one minute left for " ++ domain ++ "!", 20)
  else if remains < TWO_MINUTES_MS then
    some ("Less than two minute left for " ++ domain ++ "!", 40)
  else if remains < THREE_MINUTES_MS then
    some ("Less than three minute left for " ++ domain ++ "!", 60)
  else if remains < FOUR_MINUTES_MS then
    some ("Less than four minute left for " ++ domain ++ "!", 80)
  else if remains < FIVE_MINUTES_MS then
    some ("Less than two minute left for " ++ domain ++ "!", 100)
  else none

/-- The externally visible outcome of one `TimeManager._checkDomain` run:
`bail` (no entry for the domain in `_authorizationsByDomain`), `forbidden`
(with the ids of the tabs navigated to `about:blank`), or permitted with or
without a progress notification. -/
inductive CheckResult where
  | bail
  | forbidden (unloadedTabs : List Nat)
  | allowedQuiet
  | allowedNotify (message : String) (progress : Nat)
deriving Repr, DecidableEq

/-- `TimeManager._checkDomain(domain)`.  `auth` is `_authorizationsByDomain`
(per domain, the interval keys of the inner map, in insertion order); `tabs`
is the result of the `browser.tabs.query({active: true, url: ...})` for this
domain, each entry being the tab's optional `id`.  Returns the world after
the run (rule-manager mutations and flushes) and the visible outcome. -/
def checkDomain (auth : List (String × List IntervalObj)) (now : Int)
    (tabs : List (Option Nat)) (w : World) (domain : String) : World × CheckResult :=
  match mapGet auth domain with
  | none => (w, .bail)
  | some intervals =>
    match findRemains intervals now with
    | none =>
      let w1 := { w with rm := w.rm.forbidDomain domain }
      (w1, .forbidden (tabs.filterMap id))
    | some remains =>
      let w1 := World.rmFlush { w with rm := w.rm.allowDomain domain }
      if tabs.length = 0 then (w1, .allowedQuiet)
      else
        match warningMessage remains domain with
        | some (m, p) => (w1, .allowedNotify m p)
        | none => (w1, .allowedQuiet)

/-- `TimeManager.flush()`: drain `_domainsToCheck`, run `_checkDomain` on
each drained domain, then call `ruleManager.flush()` once at the end.
`tabsOf` gives the tab-query result per domain. -/
def tmFlush (auth : List (String × List IntervalObj)) (now : Int)
    (tabsOf : String → List (Option Nat)) (w : World)
    (domainsToCheck : List String) : World :=
  World.rmFlush
    (domainsToCheck.foldl (fun w d => (checkDomain auth now (tabsOf d) w d).1) w)

/-- The mutable fields of `TimeManager` that config processing touches:
`_authorizationsByDomain` (per domain, the interval-object keys of the inner
map) and the `_domainsToCheck` dirty set (insertion-ordered, duplicate-free).
Alarm bookkeeping is a side channel not modelled here. -/
structure TMState where
  auth : List (String × List IntervalObj)
  domainsToCheck : List String
deriving Repr, DecidableEq

/-- JS `Set.add` on a string set kept as an insertion-ordered list. -/
def insertKey (keys : List String) (k : String) : List String :=
  if keys.contains k then keys else keys ++ [k]

/-- `byInterval.set(interval, authorization)`: the inner map is keyed by the
interval *object*, so an existing entry is overwritten only when the very
same object is added again. -/
def setIntervalKey (l : List IntervalObj) (i : IntervalObj) : List IntervalObj :=
  if l.any (fun j => j.oid = i.oid) then l.map (fun j => if j.oid = i.oid then i else j)
  else l ++ [i]

/-- `TimeManager.addInterval(domain, interval)`: store the authorization under
the interval-object key and mark the domain dirty.  (Alarm registration is
not modelled.) -/
def TMState.addInterval (tm : TMState) (domain : String) (i : IntervalObj) : TMState :=
  { auth := mapSet tm.auth domain (setIntervalKey ((mapGet tm.auth domain).getD []) i),
    domainsToCheck := insertKey tm.domainsToCheck domain }

/-- `TimeManager.removeInterval(domain, interval)`: throws a `TypeError` when
the domain has no inner map or the inner map has no entry for this interval
object; otherwise deletes the entry, dropping the domain entirely when its
inner map becomes empty.  (Alarm clearing is not modelled.) -/
def TMState.removeInterval (tm : TMState) (domain : String) (i : IntervalObj) :
    Except String TMState :=
  match mapGet tm.auth domain with
  | none => .error ("No rule for domain " ++ domain)
  | some byInterval =>
    if byInterval.any (fun j => j.oid = i.oid) then
      let remaining := byInterval.filter (fun j => j.oid ≠ i.oid)
      if remaining.isEmpty then
        .ok { auth := mapDelete tm.auth domain, domainsToCheck := tm.domainsToCheck }
      else
        .ok { auth := mapSet tm.auth domain remaining, domainsToCheck := tm.domainsToCheck }
    else
      .error ("No rule for domain " ++ domain ++ " interval")

/-! ## ConfigManager -/

/-- The in-memory configuration: domain → list of `Interval` objects (JS
`Map<string, Interval[]>`). -/
abbrev Config := List (String × List IntervalObj)

/-- JS `Set.has` on a set of `Interval` objects: SameValueZero on objects is
reference identity, i.e. `oid` equality — never structural equality. -/
def jsHas (s : List IntervalObj) (i : IntervalObj) : Bool :=
  s.any (fun j => j.oid = i.oid)

/-- `new Set(list)` over `Interval` objects: deduplicate by reference,
keeping first occurrences in order. -/
def jsSetOf (l : List IntervalObj) : List IntervalObj :=
  l.foldl (fun acc i => if jsHas acc i then acc else acc ++ [i]) []

/-- A call made by `ConfigManager._processUpdate` into the `TimeManager`. -/
inductive SchedCall where
  | add (domain : String) (i : IntervalObj)
  | remove (domain : String) (i : IntervalObj)
deriving Repr, DecidableEq

/-- The key set built at the top of `_processUpdate`: a JS `Set` fed first
with the fresh config's keys, then with the stored config's keys. -/
def unionKeys (newCfg oldCfg : Config) : List String :=
  (newCfg.map Prod.fst ++ oldCfg.map Prod.fst).foldl insertKey []

/-- The per-domain body of `_processUpdate`: `before`/`after` are JS `Set`s
of interval objects; every member of `after` missing from `before` (by
reference) yields `timeManager.addInterval`, every member of `before`
missing from `after` yields `timeManager.removeInterval`, in that order. -/
def diffDomain (oldCfg newCfg : Config) (domain : String) : List SchedCall :=
  let before := jsSetOf ((mapGet oldCfg domain).getD [])
  let after := jsSetOf ((mapGet newCfg domain).getD [])
  (after.filter (fun i => !jsHas before i)).map (SchedCall.add domain) ++
    (before.filter (fun i => !jsHas after i)).map (SchedCall.remove domain)

/-- The full sequence of `TimeManager` calls issued by
`ConfigManager._processUpdate(config)` before it stores the new config and
calls `timeManager.flush()`. -/
def processUpdateCalls (oldCfg newCfg : Config) : List SchedCall :=
  (unionKeys newCfg oldCfg).foldr (fun d acc => diffDomain oldCfg newCfg d ++ acc) []

/-- Replay a call sequence against the `TimeManager` state;
`removeInterval`'s `TypeError` aborts the replay. -/
def applyCalls (tm : TMState) : List SchedCall → Except String TMState
  | [] => .ok tm
  | SchedCall.add d i :: rest => applyCalls (tm.addInterval d i) rest
  | SchedCall.remove d i :: rest =>
    match tm.removeInterval d i with
    | .error e => .error e
    | .ok tm1 => applyCalls tm1 rest

/-- One whole `ConfigManager._processUpdate(config)` followed by the
`timeManager.flush()` it returns: replay the diff calls, drain the dirty
set, check each drained domain, and end with the single trailing
`ruleManager.flush()`.  Returns the final `TimeManager` state and world. -/
def processUpdateRun (oldCfg newCfg : Config) (tm : TMState) (now : Int)
    (tabsOf : String → List (Option Nat)) (w : World) :
    Except String (TMState × World) :=
  match applyCalls tm (processUpdateCalls oldCfg newCfg) with
  | .error e => .error e
  | .ok tm1 =>
    .ok ({ tm1 with domainsToCheck := [] },
      tmFlush tm1.auth now tabsOf w tm1.domainsToCheck)

/-! ## Config fetching and HHMM parsing -/

/-- The regex `/(\d\d)(\d\d)/` applied by `hhmmToDate`: it is unanchored, so
`exec` scans for the leftmost position where four consecutive decimal digits
occur and captures them as two two-digit groups. -/
def scanHHMM : List Char → Option (Nat × Nat)
  | c1 :: c2 :: c3 :: c4 :: rest =>
    if c1.isDigit ∧ c2.isDigit ∧ c3.isDigit ∧ c4.isDigit then
      some ((c1.toNat - 48) * 10 + (c2.toNat - 48),
            (c3.toNat - 48) * 10 + (c4.toNat - 48))
    else scanHHMM (c2 :: c3 :: c4 :: rest)
  | _ => none

/-- `hhmmToDate(source)`: throws a `TypeError` when the regex does not match;
otherwise builds a `Date` for today with the captured hours and minutes
(seconds zeroed).  `midnight` is today's midnight timestamp; JS `setHours`
rolls values of 24 or more over into the following days, which
`midnight + (hours * 60 + minutes) * 60000` reproduces. -/
def hhmmToDate (midnight : Int) (source : String) : Except String Int :=
  match scanHHMM source.data with
  | none => .error ("invalid hhmm " ++ source)
  | some (hours, minutes) => .ok (midnight + ((hours * 60 + minutes : Nat) : Int) * 60000)

/-- The JSON payload shape `{ domain: [{start: "HHMM", end: "HHMM"}, ...] }`. -/
abbrev Payload := List (String × List (String × String))

/-- The inner conversion loop of `ConfigManager._fetch` for one domain:
parse each `{start, end}` pair (start first) into a freshly allocated
`Interval` object; the first `TypeError` propagates.  `oid` seeds the fresh
object ids and the next unused id is returned. -/
def parseIntervals (midnight : Int) (oid : Nat) :
    List (String × String) → Except String (List IntervalObj × Nat)
  | [] => .ok ([], oid)
  | (s, e) :: rest =>
    match hhmmToDate midnight s with
    | .error err => .error err
    | .ok dateStart =>
      match hhmmToDate midnight e with
      | .error err => .error err
      | .ok dateEnd =>
        match parseIntervals midnight (oid + 1) rest with
        | .error err => .error err
        | .ok (tail, oid1) =>
          .ok (⟨oid, ⟨dateStart, dateEnd⟩⟩ :: tail, oid1)

/-- The conversion loop of `ConfigManager._fetch` over all domains of the
payload. -/
def parsePayload (midnight : Int) (oid : Nat) :
    Payload → Except String (Config × Nat)
  | [] => .ok ([], oid)
  | (domain, ivs) :: rest =>
    match parseIntervals midnight oid ivs with
    | .error err => .error err
    | .ok (dateIntervals, oid1) =>
      match parsePayload midnight oid1 rest with
      | .error err => .error err
      | .ok (tail, oid2) => .ok ((domain, dateIntervals) :: tail, oid2)

/-- One `ConfigManager._update` cycle, given the fetched payload: if the
conversion in `_fetch` throws, the exception propagates out of `_update`
(the background loop logs it and continues), `_processUpdate` is never
reached, so the stored config stays and no `TimeManager` call is issued.
Otherwise `_processUpdate` stores the new config and issues the diff calls. -/
def updateStep (oldCfg : Config) (midnight : Int) (oid : Nat) (payload : Payload) :
    Config × List SchedCall :=
  match parsePayload midnight oid payload with
  | .error _ => (oldCfg, [])
  | .ok (newCfg, _) => (newCfg, processUpdateCalls oldCfg newCfg)

/-! ## Helper predicates and concrete scenario data -/

/-- Whether a `_checkDomain` outcome forbids the domain. -/
def CheckResult.forbade : CheckResult → Bool
  | .forbidden _ => true
  | _ => false

/-- The progress value of the notification a `_checkDomain` outcome issues,
if any. -/
def CheckResult.progressOf : CheckResult → Option Nat
  | .allowedNotify _ p => some p
  | _ => none

/-- Modelled from the spec: the well-formed `HHMM` shape of the claims —
"two digits of hours followed by two digits of minutes", i.e. exactly four
decimal digits.  Used only to compare the spec's notion of malformedness
with what `hhmmToDate` actually rejects. -/
def specWellFormedHHMM (s : String) : Prop :=
  s.data.length = 4 ∧ ∀ c ∈ s.data, c.isDigit

/-- The `RuleManager` as constructed (`_counter = 1`, everything empty). -/
def rmInit : RMState :=
  { counter := 1, addRules := [], removeRuleIds := [],
    currentRules := [], currentRulesByDomain := [] }

/-- A fresh world: initial rule manager, empty session-rule store. -/
def worldInit : World := { rm := rmInit, store := [], storeWrites := 0 }

/-- A rule manager with one pending block-rule addition queued (as after one
`forbidDomain` call on the fresh manager). -/
def rmQueued : RMState := rmInit.forbidDomain "example.com"

/-- The stored config of the C1 scenario: `example.com` authorized
`08:00–09:00` (milliseconds of the day), held as interval object #0. -/
def oldConfigC1 : Config := [("example.com", [⟨0, ⟨28800000, 32400000⟩⟩])]

/-- The freshly fetched config of the C1 scenario: structurally identical to
`oldConfigC1`, but — as after any real fetch — made of a freshly allocated
interval object (#1). -/
def newConfigC1 : Config := [("example.com", [⟨1, ⟨28800000, 32400000⟩⟩])]

/-- Session-store block rules for two domains, as live before the C3
scenario's refresh. -/
def ruleA : Rule := { id := 2, actionType := "block", urlFilter := "||a.example" }
def ruleB : Rule := { id := 3, actionType := "block", urlFilter := "||b.example" }
def storeC3 : List Rule := [ruleA, ruleB]

/-- A rule manager whose cache reflects `storeC3` (as after `init()` plus a
flush), with `_counter` past the live ids. -/
def rmC3 : RMState :=
  { counter := 4, addRules := [], removeRuleIds := [],
    currentRules := storeC3, currentRulesByDomain := computeRulesByDomain storeC3 }

/-- The world before the C3 scenario's refresh. -/
def wC3 : World := { rm := rmC3, store := storeC3, storeWrites := 0 }

/-- The C3 scenario's fresh config: both blocked domains gain an interval
that contains the present instant. -/
def newCfgC3 : Config :=
  [("a.example", [⟨0, ⟨0, 100000000⟩⟩]), ("b.example", [⟨1, ⟨0, 100000000⟩⟩])]

/-! ## Shared lemmas -/

/-- If no interval of the list contains `now`, the `_checkDomain` scan comes
out falsy. -/
lemma findRemains_eq_none (l : List IntervalObj) (now : Int)
    (h : ∀ i ∈ l, i.val.contains now = none) : findRemains l now = none := by
  induction l with
  | nil => rfl
  | cons i rest ih =>
    unfold findRemains
    rw [h i (List.mem_cons_self i rest)]
    exact ih fun j hj => h j (List.mem_cons_of_mem i hj)

/-- `_checkDomain` on a domain present in the store, expressed on the
outcome of the interval scan. -/
lemma checkDomain_eq (auth : List (String × List IntervalObj)) (now : Int)
    (tabs : List (Option Nat)) (w : World) (domain : String)
    (ivs : List IntervalObj) (hlook : mapGet auth domain = some ivs) :
    checkDomain auth now tabs w domain =
      match findRemains ivs now with
      | none =>
        ({ w with rm := w.rm.forbidDomain domain },
          CheckResult.forbidden (tabs.filterMap id))
      | some remains =>
        let w1 := World.rmFlush { w with rm := w.rm.allowDomain domain }
        if tabs.length = 0 then (w1, CheckResult.allowedQuiet)
        else
          match warningMessage remains domain with
          | some (m, p) => (w1, CheckResult.allowedNotify m p)
          | none => (w1, CheckResult.allowedQuiet) := by
  unfold checkDomain
  rw [hlook]

/-- `_checkDomain` on a domain absent from the authorization store: bail
out with no effect. -/
lemma checkDomain_eq_bail (auth : List (String × List IntervalObj)) (now : Int)
    (tabs : List (Option Nat)) (w : World) (domain : String)
    (hlook : mapGet auth domain = none) :
    checkDomain auth now tabs w domain = (w, CheckResult.bail) := by
  unfold checkDomain
  rw [hlook]

/-- `_checkDomain` on a domain whose interval scan finds a containing
interval with remaining time `r`. -/
lemma checkDomain_eq_allowed (auth : List (String × List IntervalObj)) (now : Int)
    (tabs : List (Option Nat)) (w : World) (domain : String)
    (ivs : List IntervalObj) (r : Int)
    (hlook : mapGet auth domain = some ivs)
    (hrem : findRemains ivs now = some r) :
    checkDomain auth now tabs w domain =
      (let w1 := World.rmFlush { w with rm := w.rm.allowDomain domain }
       if tabs.length = 0 then (w1, CheckResult.allowedQuiet)
       else
         match warningMessage r domain with
         | some (m, p) => (w1, CheckResult.allowedNotify m p)
         | none => (w1, CheckResult.allowedQuiet)) := by
  rw [checkDomain_eq auth now tabs w domain ivs hlook, hrem]

/-! ## C7 -/

/-- C7: for every interval with `start < end` and every instant `t`,
`contains` returns the strictly positive remaining duration `end − t` when
`start ≤ t < end`, and is falsy when `t < start` or `t ≥ end` (including
exactly at `t = end`). -/
theorem contains_halfopen_spec (i : Interval) (t : Int) (hwf : i.start < i.«end») :
    (i.start ≤ t ∧ t < i.«end» →
      i.contains t = some (i.«end» - t) ∧ 0 < i.«end» - t) ∧
    (t < i.start ∨ i.«end» ≤ t → i.contains t = none) := by
  constructor
  · rintro ⟨h1, h2⟩
    refine ⟨?_, by omega⟩
    unfold Interval.contains
    rw [if_pos ⟨h1, h2⟩]
  · intro h1
    unfold Interval.contains
    rw [if_neg (by omega)]

/-- C7 witness: the interval `[08:00, 09:00)` (milliseconds of day) at
`08:30` and at exactly `09:00`. -/
theorem contains_halfopen_spec_witness :
    (Interval.contains ⟨28800000, 32400000⟩ 30600000 = some (32400000 - 30600000) ∧
      (0 : Int) < 32400000 - 30600000) ∧
    Interval.contains ⟨28800000, 32400000⟩ 32400000 = none :=
  ⟨(contains_halfopen_spec ⟨28800000, 32400000⟩ 30600000 (by norm_num)).1
      ⟨by norm_num, by norm_num⟩,
    (contains_halfopen_spec ⟨28800000, 32400000⟩ 32400000 (by norm_num)).2
      (Or.inr (by norm_num))⟩

/-! ## C10 -/

/-- C10: an interval constructed with `start ≥ end` (the unenforced
well-formedness invariant violated) never contains any instant: `contains`
is falsy everywhere, so degenerate or inverted intervals never grant
authorization and never yield a non-positive remaining duration. -/
theorem contains_degenerate_never (i : Interval) (hdeg : i.«end» ≤ i.start) (t : Int) :
    i.contains t = none := by
  unfold Interval.contains
  rw [if_neg (by omega)]

/-- C10 witness: the inverted interval `(09:00, 08:00)` contains neither an
inner instant nor its own endpoints. -/
theorem contains_degenerate_never_witness :
    Interval.contains ⟨32400000, 28800000⟩ 30600000 = none :=
  contains_degenerate_never ⟨32400000, 28800000⟩ (by norm_num) 30600000

/-! ## C1 -/

/-- C1: refreshing with a structurally identical configuration is *not* a
no-op.  `oldConfigC1` and `newConfigC1` agree on every domain and on every
interval's `(start, end)` values (first conjunct), yet `_processUpdate`
issues an `addInterval` for the fresh interval object and a
`removeInterval` for the stored one (second conjunct): the JS `Set.has`
membership test compares `Interval` objects by reference, and a fetch always
allocates fresh objects, so the "interval was neither added nor removed"
branch can never fire across fetches and every refresh tears down and
re-registers every interval's timers. -/
theorem processUpdate_identical_refresh_not_noop :
    (oldConfigC1.map (fun p => (p.1, p.2.map IntervalObj.val)) =
      newConfigC1.map (fun p => (p.1, p.2.map IntervalObj.val))) ∧
    processUpdateCalls oldConfigC1 newConfigC1 =
      [SchedCall.add "example.com" ⟨1, ⟨28800000, 32400000⟩⟩,
       SchedCall.remove "example.com" ⟨0, ⟨28800000, 32400000⟩⟩] :=
  ⟨rfl, rfl⟩

/-! ## C4 -/

/-- C4: calling `forbidDomain` twice in a row for the same domain with no
intervening flush queues *two* block-rule additions, not one.  The
idempotence guard consults only `_currentRulesByDomain` — the cache of
already-flushed rules — never the pending `_addRules` queue, so before any
flush the second call pushes a second rule (with a fresh id) for the same
domain. -/
theorem forbidDomain_twice_queues_two :
    ((rmInit.forbidDomain "example.com").forbidDomain "example.com").addRules =
      [{ id := 2, actionType := "block", urlFilter := "||example.com" },
       { id := 3, actionType := "block", urlFilter := "||example.com" }] ∧
    (rmInit.forbidDomain "example.com").addRules =
      [{ id := 2, actionType := "block", urlFilter := "||example.com" }] :=
  ⟨rfl, rfl⟩

/-! ## C2 -/

/-- C2 counterexample: a domain with zero live authorizations registered is
*not* forbidden when `_checkDomain` runs — the function bails out before
any decision: the outcome is `bail`, the rule manager is untouched (no
`forbidDomain`), and no tab is navigated away, although an active tab is
visiting the domain and the instant lies in none of the (zero) intervals. -/
theorem checkDomain_zero_authorizations_bails :
    checkDomain [] 0 [some 1] worldInit "example.com" = (worldInit, CheckResult.bail) ∧
    (checkDomain [] 0 [some 1] worldInit "example.com").2.forbade = false :=
  ⟨rfl, rfl⟩

/-- C2 amended: `_checkDomain` forbids a domain exactly when the domain
*has* an entry in the authorization store and none of its live intervals
contains `now`: the rule manager is instructed to forbid it and every
queried active tab with an id is navigated to `about:blank`.  When the
domain has zero live authorizations (no store entry), `_checkDomain`
instead bails out without forbidding or terminating anything. -/
theorem checkDomain_forbid_cases (auth : List (String × List IntervalObj))
    (now : Int) (tabs : List (Option Nat)) (w : World) (domain : String) :
    (mapGet auth domain = none →
      checkDomain auth now tabs w domain = (w, CheckResult.bail)) ∧
    (∀ ivs, mapGet auth domain = some ivs →
      (∀ i ∈ ivs, i.val.contains now = none) →
      checkDomain auth now tabs w domain =
        ({ w with rm := w.rm.forbidDomain domain },
          CheckResult.forbidden (tabs.filterMap id))) := by
  constructor
  · intro h
    unfold checkDomain
    rw [h]
  · intro ivs hlook hnone
    rw [checkDomain_eq auth now tabs w domain ivs hlook,
      findRemains_eq_none ivs now hnone]

/-- C2 witness: one stale interval (`08:00–09:00`) checked at `10:00`; of
the two active tabs, the one with an id is unloaded. -/
theorem checkDomain_forbid_cases_witness :
    checkDomain [("example.com", [⟨0, ⟨28800000, 32400000⟩⟩])] 36000000
        [some 5, none] worldInit "example.com" =
      ({ worldInit with rm := worldInit.rm.forbidDomain "example.com" },
        CheckResult.forbidden [5]) :=
  (checkDomain_forbid_cases [("example.com", [⟨0, ⟨28800000, 32400000⟩⟩])]
      36000000 [some 5, none] worldInit "example.com").2
    [⟨0, ⟨28800000, 32400000⟩⟩] rfl (by decide)

/-! ## C6 -/

/-- C6 counterexample: in the `example.com` `08:00–09:00` scenario, at
`08:59` with an active session the remaining time is exactly one minute, so
`remains < ONE_MINUTE_MS` is false and the emitted notification has
progress 40, not the claimed 20 (the 20% bucket needs *strictly less* than
one minute left). -/
theorem checkDomain_0859_notifies_forty :
    (checkDomain [("example.com", [⟨0, ⟨28800000, 32400000⟩⟩])] 32340000
        [some 1] worldInit "example.com").2 =
      CheckResult.allowedNotify "Less than two minute left for example.com!" 40 ∧
    CheckResult.progressOf
        (checkDomain [("example.com", [⟨0, ⟨28800000, 32400000⟩⟩])] 32340000
          [some 1] worldInit "example.com").2 ≠ some 20 := by
  refine ⟨rfl, ?_⟩
  intro h
  rw [(rfl :
    CheckResult.progressOf
        (checkDomain [("example.com", [⟨0, ⟨28800000, 32400000⟩⟩])] 32340000
          [some 1] worldInit "example.com").2 = some 40)] at h
  injection h with h1
  exact absurd h1 (by norm_num)

/-- C6 amended: on a reevaluation that finds the domain allowed with
remaining time `r`, no notification is issued when no active tab is on the
domain; with at least one active tab, exactly one notification is issued
with progress chosen by the smallest threshold `r` satisfies —
`r < 1min → 20`, `1min ≤ r < 2min → 40`, `2min ≤ r < 3min → 60`,
`3min ≤ r < 4min → 80`, `4min ≤ r < 5min → 100` — and none when `r` is at
least five minutes.  At `08:59` of the `08:00–09:00` scenario, `r` is
exactly one minute, landing in the 40 bucket. -/
theorem checkDomain_warning_thresholds (auth : List (String × List IntervalObj))
    (now : Int) (tabs : List (Option Nat)) (w : World) (domain : String)
    (ivs : List IntervalObj) (r : Int)
    (hlook : mapGet auth domain = some ivs)
    (hrem : findRemains ivs now = some r) :
    (tabs.length = 0 →
      (checkDomain auth now tabs w domain).2 = CheckResult.allowedQuiet) ∧
    (tabs.length ≠ 0 →
      (r < ONE_MINUTE_MS →
        (checkDomain auth now tabs w domain).2 =
          CheckResult.allowedNotify
            ("Less than one minute left for " ++ domain ++ "!") 20) ∧
      (ONE_MINUTE_MS ≤ r → r < TWO_MINUTES_MS →
        (checkDomain auth now tabs w domain).2 =
          CheckResult.allowedNotify
            ("Less than two minute left for " ++ domain ++ "!") 40) ∧
      (TWO_MINUTES_MS ≤ r → r < THREE_MINUTES_MS →
        (checkDomain auth now tabs w domain).2 =
          CheckResult.allowedNotify
            ("Less than three minute left for " ++ domain ++ "!") 60) ∧
      (THREE_MINUTES_MS ≤ r → r < FOUR_MINUTES_MS →
        (checkDomain auth now tabs w domain).2 =
          CheckResult.allowedNotify
            ("Less than four minute left for " ++ domain ++ "!") 80) ∧
      (FOUR_MINUTES_MS ≤ r → r < FIVE_MINUTES_MS →
        (checkDomain auth now tabs w domain).2 =
          CheckResult.allowedNotify
            ("Less than two minute left for " ++ domain ++ "!") 100) ∧
      (FIVE_MINUTES_MS ≤ r →
        (checkDomain auth now tabs w domain).2 = CheckResult.allowedQuiet)) := by
  have hc := checkDomain_eq_allowed auth now tabs w domain ivs r hlook hrem
  constructor
  · intro h0
    rw [hc]
    simp [h0]
  · intro hne
    refine ⟨?_, ?_, ?_, ?_, ?_, ?_⟩
    · intro h1
      have hw : warningMessage r domain =
          some ("Less than one minute left for " ++ domain ++ "!", 20) := by
        unfold warningMessage
        rw [if_pos h1]
      rw [hc]
      simp [hne, hw]
    · intro h1 h2
      simp only [ONE_MINUTE_MS, TWO_MINUTES_MS] at h1 h2
      have hw : warningMessage r domain =
          some ("Less than two minute left for " ++ domain ++ "!", 40) := by
        unfold warningMessage ONE_MINUTE_MS TWO_MINUTES_MS
        rw [if_neg (by omega), if_pos (by omega)]
      rw [hc]
      simp [hne, hw]
    · intro h1 h2
      simp only [TWO_MINUTES_MS, THREE_MINUTES_MS] at h1 h2
      have hw : warningMessage r domain =
          some ("Less than three minute left for " ++ domain ++ "!", 60) := by
        unfold warningMessage ONE_MINUTE_MS TWO_MINUTES_MS THREE_MINUTES_MS
        rw [if_neg (by omega), if_neg (by omega), if_pos (by omega)]
      rw [hc]
      simp [hne, hw]
    · intro h1 h2
      simp only [THREE_MINUTES_MS, FOUR_MINUTES_MS] at h1 h2
      have hw : warningMessage r domain =
          some ("Less than four minute left for " ++ domain ++ "!", 80) := by
        unfold warningMessage ONE_MINUTE_MS TWO_MINUTES_MS THREE_MINUTES_MS
          FOUR_MINUTES_MS
        rw [if_neg (by omega), if_neg (by omega), if_neg (by omega),
          if_pos (by omega)]
      rw [hc]
      simp [hne, hw]
    · intro h1 h2
      simp only [FOUR_MINUTES_MS, FIVE_MINUTES_MS] at h1 h2
      have hw : warningMessage r domain =
          some ("Less than two minute left for " ++ domain ++ "!", 100) := by
        unfold warningMessage ONE_MINUTE_MS TWO_MINUTES_MS THREE_MINUTES_MS
          FOUR_MINUTES_MS FIVE_MINUTES_MS
        rw [if_neg (by omega), if_neg (by omega), if_neg (by omega),
          if_neg (by omega), if_pos (by omega)]
      rw [hc]
      simp [hne, hw]
    · intro h1
      simp only [FIVE_MINUTES_MS] at h1
      have hw : warningMessage r domain = none := by
        unfold warningMessage ONE_MINUTE_MS TWO_MINUTES_MS THREE_MINUTES_MS
          FOUR_MINUTES_MS FIVE_MINUTES_MS
        rw [if_neg (by omega), if_neg (by omega), if_neg (by omega),
          if_neg (by omega), if_neg (by omega)]
      rw [hc]
      simp [hne, hw]

/-- C6 witness: the `08:00–09:00` scenario at `08:30` with an active
session — thirty minutes remain, above every threshold, so no notification
is issued. -/
theorem checkDomain_warning_thresholds_witness :
    (checkDomain [("example.com", [⟨0, ⟨28800000, 32400000⟩⟩])] 30600000
        [some 1] worldInit "example.com").2 = CheckResult.allowedQuiet :=
  ((checkDomain_warning_thresholds [("example.com", [⟨0, ⟨28800000, 32400000⟩⟩])]
      30600000 [some 1] worldInit "example.com"
      [⟨0, ⟨28800000, 32400000⟩⟩] 1800000 rfl rfl).2
    (by norm_num)).2.2.2.2.2 (by norm_num [FIVE_MINUTES_MS])

/-! ## C5 -/

/-- `mapGet` after `mapSet`: the written key reads back the written value,
every other key is unchanged. -/
lemma mapGet_mapSet {α : Type} (m : List (String × α)) (k d : String) (v : α) :
    mapGet (mapSet m k v) d = if k = d then some v else mapGet m d := by
  induction m with
  | nil => rfl
  | cons p rest ih =>
    obtain ⟨k0, v0⟩ := p
    unfold mapSet
    by_cases hk : k0 = k
    · rw [if_pos hk]
      subst hk
      unfold mapGet
      by_cases hd : k0 = d
      · rw [if_pos hd, if_pos hd]
      · rw [if_neg hd, if_neg hd, if_neg hd]
    · rw [if_neg hk]
      unfold mapGet
      rw [ih]
      by_cases hd : k0 = d
      · subst hd
        rw [if_pos rfl, if_neg (fun hkd => hk hkd.symm), if_pos rfl]
      · rw [if_neg hd]
        by_cases hkd : k = d
        · rw [if_pos hkd, if_pos hkd]
        · rw [if_neg hkd, if_neg hkd, if_neg hd]

/-- One `_computeRulesByDomain` loop step, seen through key membership. -/
lemma mapGet_step_isSome (m : List (String × Rule)) (rule : Rule) (d : String) :
    (mapGet (computeRulesByDomainStep m rule) d).isSome ↔
      ((mapGet m d).isSome ∨ ruleBlocks rule d) := by
  unfold computeRulesByDomainStep ruleBlocks
  by_cases h1 : rule.actionType = "block"
  · rw [if_neg (by simp [h1])]
    by_cases h2 : rule.urlFilter = ""
    · rw [if_pos h2, h2]
      simp [show extractDomain ("" : String).data = none from rfl]
    · rw [if_neg h2]
      cases hex : extractDomain rule.urlFilter.data with
      | none => simp [h1, hex]
      | some d0 =>
        rw [mapGet_mapSet]
        by_cases hd : d0 = d
        · subst hd
          simp [h1, hex]
        · rw [if_neg hd]
          simp [h1, hex, hd]
  · rw [if_pos (by simp [h1])]
    simp [h1]

/-- Key membership of the whole `_computeRulesByDomain` fold. -/
lemma mapGet_foldl_isSome (rules : List Rule) (m : List (String × Rule)) (d : String) :
    (mapGet (rules.foldl computeRulesByDomainStep m) d).isSome ↔
      ((mapGet m d).isSome ∨ ∃ r ∈ rules, ruleBlocks r d) := by
  induction rules generalizing m with
  | nil => simp
  | cons rule rest ih =>
    rw [List.foldl_cons, ih, mapGet_step_isSome]
    constructor
    · rintro ((h | h) | ⟨r, hr, hb⟩)
      · exact Or.inl h
      · exact Or.inr ⟨rule, List.mem_cons_self rule rest, h⟩
      · exact Or.inr ⟨r, List.mem_cons_of_mem rule hr, hb⟩
    · rintro (h | ⟨r, hr, hb⟩)
      · exact Or.inl (Or.inl h)
      · rcases List.mem_cons.mp hr with h1 | h1
        · subst h1
          exact Or.inl (Or.inr hb)
        · exact Or.inr ⟨r, h1, hb⟩

/-- The cache derived from a rule list has exactly the blocked domains as
keys. -/
lemma mapGet_computeRulesByDomain_isSome (rules : List Rule) (d : String) :
    (mapGet (computeRulesByDomain rules) d).isSome ↔ ∃ r ∈ rules, ruleBlocks r d := by
  unfold computeRulesByDomain
  rw [mapGet_foldl_isSome]
  simp [mapGet]

/-- `¬(both queues empty)` in the form `flush`'s guard tests. -/
lemma queues_nonempty_cond {st : RMState}
    (hne : ¬(st.addRules = [] ∧ st.removeRuleIds = [])) :
    st.addRules.length ≠ 0 ∨ st.removeRuleIds.length ≠ 0 := by
  by_contra hc
  push_neg at hc
  exact hne ⟨List.length_eq_zero.mp hc.1, List.length_eq_zero.mp hc.2⟩

/-- C5: `RuleManager.flush()` with both queues empty performs no call to the
external rule store and leaves everything unchanged; with a non-empty queue
it applies the full diff and re-reads, after which the cached domain→rule
map has exactly the domains with an active block rule (action type
`"block"`, `||domain` url filter) in the external store as keys, and both
pending queues are empty. -/
theorem flush_noop_and_roundtrip (st : RMState) (store : List Rule) :
    (st.addRules = [] ∧ st.removeRuleIds = [] →
      st.flush store true =
        { rm := st, store := store, wrote := false, errored := false }) ∧
    (¬(st.addRules = [] ∧ st.removeRuleIds = []) →
      (st.flush store true).wrote = true ∧
      (st.flush store true).rm.addRules = [] ∧
      (st.flush store true).rm.removeRuleIds = [] ∧
      ∀ d, (mapGet (st.flush store true).rm.currentRulesByDomain d).isSome ↔
        ∃ r ∈ (st.flush store true).store, ruleBlocks r d) := by
  constructor
  · rintro ⟨h1, h2⟩
    obtain ⟨c, ar, rr, cr, crd⟩ := st
    change ar = [] at h1
    change rr = [] at h2
    subst h1
    subst h2
    rfl
  · intro hne
    have hcond := queues_nonempty_cond hne
    unfold RMState.flush
    rw [if_pos hcond]
    refine ⟨rfl, rfl, rfl, fun d => ?_⟩
    exact mapGet_computeRulesByDomain_isSome
      (updateSessionRules store st.addRules st.removeRuleIds) d

/-- C5 witness: flushing a manager with one queued block rule into an empty
store fills the store and the cache; then an idle flush is a no-op. -/
theorem flush_noop_and_roundtrip_witness :
    ((rmQueued.flush [] true).wrote = true ∧
      (rmQueued.flush [] true).rm.addRules = [] ∧
      (rmQueued.flush [] true).rm.removeRuleIds = [] ∧
      ∀ d, (mapGet (rmQueued.flush [] true).rm.currentRulesByDomain d).isSome ↔
        ∃ r ∈ (rmQueued.flush [] true).store, ruleBlocks r d) ∧
    rmInit.flush [] true =
      { rm := rmInit, store := [], wrote := false, errored := false } :=
  ⟨(flush_noop_and_roundtrip rmQueued []).2 (by simp [rmQueued, rmInit, RMState.forbidDomain, mapGet]),
    (flush_noop_and_roundtrip rmInit []).1 ⟨rfl, rfl⟩⟩

/-! ## C8 -/

/-- C8 counterexample: the pending diff does *not* survive a failed flush.
With one queued block rule and a rejecting store, `flush` rejects (the
error is propagated, not swallowed), the store is untouched — but the
pending queues were reset *before* the external call, so the queued rule is
gone and the very next flush is a no-op instead of a retry. -/
theorem flush_failure_loses_queue :
    rmQueued.addRules ≠ [] ∧
    (rmQueued.flush [] false).errored = true ∧
    (rmQueued.flush [] false).wrote = false ∧
    (rmQueued.flush [] false).rm.addRules = [] ∧
    ((rmQueued.flush [] false).rm.flush [] true).wrote = false := by
  refine ⟨?_, rfl, rfl, rfl, rfl⟩
  simp [rmQueued, rmInit, RMState.forbidDomain, mapGet]

/-- C8 amended: when the external rule-store apply fails during
`RuleManager.flush()`, the rejection propagates to the caller (the failure
is not silently swallowed) and the store is left unchanged; but because the
pending queues are cleared *before* the external call, the queued diff is
dropped rather than preserved — a subsequent flush with nothing newly
queued performs no retry. -/
theorem flush_failure_drops_diff (st : RMState) (store : List Rule)
    (hne : ¬(st.addRules = [] ∧ st.removeRuleIds = [])) :
    (st.flush store false).errored = true ∧
    (st.flush store false).wrote = false ∧
    (st.flush store false).store = store ∧
    (st.flush store false).rm.addRules = [] ∧
    (st.flush store false).rm.removeRuleIds = [] ∧
    ((st.flush store false).rm.flush store true).wrote = false := by
  have hcond := queues_nonempty_cond hne
  unfold RMState.flush
  rw [if_pos hcond]
  exact ⟨rfl, rfl, rfl, rfl, rfl, rfl⟩

/-- C8 witness: the failing flush of a manager with one queued rule. -/
theorem flush_failure_drops_diff_witness :
    (rmQueued.flush [] false).errored = true ∧
    (rmQueued.flush [] false).wrote = false ∧
    (rmQueued.flush [] false).store = [] ∧
    (rmQueued.flush [] false).rm.addRules = [] ∧
    (rmQueued.flush [] false).rm.removeRuleIds = [] ∧
    ((rmQueued.flush [] false).rm.flush [] true).wrote = false :=
  flush_failure_drops_diff rmQueued []
    (by simp [rmQueued, rmInit, RMState.forbidDomain, mapGet])

/-! ## C9 -/

/-- A successfully parsed time string contains four consecutive digits. -/
lemma hhmmToDate_ok_scan {midnight : Int} {s : String} {v : Int}
    (h : hhmmToDate midnight s = .ok v) : scanHHMM s.data ≠ none := by
  intro hn
  unfold hhmmToDate at h
  rw [hn] at h
  simp at h

/-- If the per-domain interval loop of `_fetch` succeeds, every start and
end string made it through `hhmmToDate`. -/
lemma parseIntervals_ok_no_bad (midnight : Int) (oid : Nat)
    (ivs : List (String × String)) (x : List IntervalObj × Nat)
    (h : parseIntervals midnight oid ivs = .ok x) :
    ∀ p ∈ ivs, scanHHMM p.1.data ≠ none ∧ scanHHMM p.2.data ≠ none := by
  induction ivs generalizing oid x with
  | nil => intro p hp; cases hp
  | cons q rest ih =>
    obtain ⟨s, e⟩ := q
    intro p hp
    unfold parseIntervals at h
    cases hs : hhmmToDate midnight s with
    | error err => rw [hs] at h; simp at h
    | ok ds =>
      rw [hs] at h
      cases he : hhmmToDate midnight e with
      | error err => rw [he] at h; simp at h
      | ok de =>
        rw [he] at h
        cases hrest : parseIntervals midnight (oid + 1) rest with
        | error err => rw [hrest] at h; simp at h
        | ok y =>
          rcases List.mem_cons.mp hp with h1 | h1
          · subst h1
            exact ⟨hhmmToDate_ok_scan hs, hhmmToDate_ok_scan he⟩
          · exact ih (oid + 1) y hrest p h1

/-- If the whole `_fetch` conversion succeeds, every time string of the
payload parses. -/
lemma parsePayload_ok_no_bad (midnight : Int) (oid : Nat) (payload : Payload)
    (x : Config × Nat) (h : parsePayload midnight oid payload = .ok x) :
    ∀ dp ∈ payload, ∀ p ∈ dp.2, scanHHMM p.1.data ≠ none ∧ scanHHMM p.2.data ≠ none := by
  induction payload generalizing oid x with
  | nil => intro dp hdp; cases hdp
  | cons q rest ih =>
    obtain ⟨domain, ivs⟩ := q
    intro dp hdp
    unfold parsePayload at h
    cases hiv : parseIntervals midnight oid ivs with
    | error err => rw [hiv] at h; simp at h
    | ok y =>
      obtain ⟨ivlist, oid1⟩ := y
      rw [hiv] at h
      cases hrest : parsePayload midnight oid1 rest with
      | error err => simp [hrest] at h
      | ok z =>
        rcases List.mem_cons.mp hdp with h1 | h1
        · subst h1
          exact parseIntervals_ok_no_bad midnight oid ivs (ivlist, oid1) hiv
        · exact ih oid1 z hrest dp h1

/-- C9 counterexample: `"12345"` is not of the claimed well-formed shape
(two digits of hours followed by two digits of minutes), yet parsing does
*not* fail: the regex `/(\d\d)(\d\d)/` is unanchored, so `hhmmToDate`
accepts any string containing four consecutive digits and silently uses the
first four (`"12345"` parses as 12:34). -/
theorem hhmm_malformed_accepted :
    ¬ specWellFormedHHMM "12345" ∧
    scanHHMM "12345".data = some (12, 34) ∧
    hhmmToDate 0 "12345" = .ok ((12 * 60 + 34) * 60000) := by
  refine ⟨?_, rfl, rfl⟩
  intro hshape
  have := hshape.1
  simp at this

/-- C9 amended: `hhmmToDate` fails with a parse error exactly for strings
containing no four consecutive decimal digits (a malformed string such as
`"12345"` that does contain such a run parses via its first four digits).
Such a parse error aborts that fetch cycle's processing: if any time string
of the payload fails the scan, `_update` issues no `addInterval` or
`removeInterval` call and the previously stored config remains
authoritative, while the fetch loop continues with its next iteration. -/
theorem parse_error_aborts_cycle (oldCfg : Config) (midnight : Int) (oid : Nat)
    (payload : Payload)
    (hbad : ∃ dp ∈ payload, ∃ p ∈ dp.2,
      scanHHMM p.1.data = none ∨ scanHHMM p.2.data = none) :
    updateStep oldCfg midnight oid payload = (oldCfg, []) := by
  unfold updateStep
  cases hp : parsePayload midnight oid payload with
  | error err => rfl
  | ok x =>
    exfalso
    obtain ⟨dp, hdp, p, hpmem, hb⟩ := hbad
    have hok := parsePayload_ok_no_bad midnight oid payload x hp dp hdp p hpmem
    rcases hb with hb | hb
    · exact hok.1 hb
    · exact hok.2 hb

/-- C9 witness: a payload whose start time `"08:00"` has no four-digit run;
the cycle keeps the stored config (`oldConfigC1`) and issues no calls. -/
theorem parse_error_aborts_cycle_witness :
    updateStep oldConfigC1 0 100 [("example.com", [("08:00", "0900")])] =
      (oldConfigC1, []) :=
  parse_error_aborts_cycle oldConfigC1 0 100 [("example.com", [("08:00", "0900")])]
    ⟨("example.com", [("08:00", "0900")]), by simp,
      ("08:00", "0900"), by simp, Or.inl rfl⟩

/-! ## C3 -/

/-- One `ruleManager.flush()` writes the external store at most once. -/
lemma rmFlush_writes_le (w : World) :
    (World.rmFlush w).storeWrites ≤ w.storeWrites + 1 := by
  show w.storeWrites + (if (w.rm.flush w.store true).wrote = true then 1 else 0) ≤
    w.storeWrites + 1
  split <;> omega

/-- `_checkDomain` on a domain whose interval scan comes out falsy. -/
lemma checkDomain_eq_forbidden (auth : List (String × List IntervalObj)) (now : Int)
    (tabs : List (Option Nat)) (w : World) (domain : String)
    (ivs : List IntervalObj) (hlook : mapGet auth domain = some ivs)
    (hrem : findRemains ivs now = none) :
    checkDomain auth now tabs w domain =
      ({ w with rm := w.rm.forbidDomain domain },
        CheckResult.forbidden (tabs.filterMap id)) := by
  rw [checkDomain_eq auth now tabs w domain ivs hlook, hrem]

/-- One `_checkDomain` run writes the external store at most once (the
allowed path's embedded `ruleManager.flush()`). -/
lemma checkDomain_writes_le (auth : List (String × List IntervalObj)) (now : Int)
    (tabs : List (Option Nat)) (w : World) (domain : String) :
    (checkDomain auth now tabs w domain).1.storeWrites ≤ w.storeWrites + 1 := by
  cases hlook : mapGet auth domain with
  | none =>
    rw [checkDomain_eq_bail auth now tabs w domain hlook]
    exact Nat.le_add_right _ 1
  | some ivs =>
    cases hrem : findRemains ivs now with
    | none =>
      rw [checkDomain_eq_forbidden auth now tabs w domain ivs hlook hrem]
      exact Nat.le_add_right _ 1
    | some r =>
      rw [checkDomain_eq_allowed auth now tabs w domain ivs r hlook hrem]
      have hb := rmFlush_writes_le { w with rm := w.rm.allowDomain domain }
      split
      · exact hb
      · split
        · exact hb
        · exact hb

/-- The `_checkDomain` loop of `TimeManager.flush` writes the external store
at most once per drained domain. -/
lemma checkDomain_foldl_writes_le (auth : List (String × List IntervalObj))
    (now : Int) (tabsOf : String → List (Option Nat)) (ds : List String) :
    ∀ w : World,
      ((ds.foldl (fun w d => (checkDomain auth now (tabsOf d) w d).1) w).storeWrites ≤
        w.storeWrites + ds.length) := by
  induction ds with
  | nil => intro w; simp
  | cons d rest ih =>
    intro w
    rw [List.foldl_cons]
    have h1 := ih (checkDomain auth now (tabsOf d) w d).1
    have h2 := checkDomain_writes_le auth now (tabsOf d) w d
    simp only [List.length_cons]
    omega

/-- C3: on a config refresh, `ConfigManager._processUpdate` issues all the
diff's `addInterval`/`removeInterval` calls and then calls
`TimeManager.flush()` exactly once for the whole batch (the `.ok` shape
below); but that single `TimeManager.flush` does *not* translate into a
single external rule-store flush: each dirty domain found allowed performs
its own `ruleManager.flush()`, so the refresh performs up to
`(number of dirty domains) + 1` external store writes — the final
`ruleManager.flush()` plus at most one per drained domain. -/
theorem processUpdate_single_tmFlush_many_store_writes (oldCfg newCfg : Config)
    (tm : TMState) (now : Int) (tabsOf : String → List (Option Nat)) (w : World)
    (tm1 : TMState) (w1 : World)
    (hrun : processUpdateRun oldCfg newCfg tm now tabsOf w = .ok (tm1, w1)) :
    ∃ tma, applyCalls tm (processUpdateCalls oldCfg newCfg) = .ok tma ∧
      tm1 = { tma with domainsToCheck := [] } ∧
      w1 = tmFlush tma.auth now tabsOf w tma.domainsToCheck ∧
      w1.storeWrites ≤ w.storeWrites + tma.domainsToCheck.length + 1 := by
  unfold processUpdateRun at hrun
  cases happ : applyCalls tm (processUpdateCalls oldCfg newCfg) with
  | error e => rw [happ] at hrun; simp at hrun
  | ok tma =>
    rw [happ] at hrun
    simp at hrun
    obtain ⟨h1, h2⟩ := hrun
    refine ⟨tma, rfl, h1.symm, h2.symm, ?_⟩
    rw [← h2]
    unfold tmFlush
    have hf := checkDomain_foldl_writes_le tma.auth now tabsOf tma.domainsToCheck w
    have hr := rmFlush_writes_le
      (tma.domainsToCheck.foldl
        (fun w d => (checkDomain tma.auth now (tabsOf d) w d).1) w)
    omega

/-- C3 witness: a refresh of the empty old config against `newConfigC1`
with no live block rules and no tabs — one dirty domain, one terminal
flush, at most two store writes. -/
theorem processUpdate_single_tmFlush_many_store_writes_witness :
    ∃ tma, applyCalls { auth := [], domainsToCheck := [] }
        (processUpdateCalls [] newConfigC1) = .ok tma ∧
      ({ auth := [("example.com", [⟨1, ⟨28800000, 32400000⟩⟩])],
         domainsToCheck := [] } : TMState) = { tma with domainsToCheck := [] } ∧
      worldInit =
        tmFlush tma.auth 30600000 (fun _ => []) worldInit tma.domainsToCheck ∧
      worldInit.storeWrites ≤
        worldInit.storeWrites + tma.domainsToCheck.length + 1 :=
  processUpdate_single_tmFlush_many_store_writes [] newConfigC1
    { auth := [], domainsToCheck := [] } 30600000 (fun _ => []) worldInit
    { auth := [("example.com", [⟨1, ⟨28800000, 32400000⟩⟩])], domainsToCheck := [] }
    worldInit rfl

/-- C3 counterexample: a single config refresh performing *two* external
rule-store flushes.  Both `a.example` and `b.example` are currently blocked
in the store and the fresh config grants both an interval containing `now`:
each domain's `_checkDomain` finds it allowed, queues the block rule's
removal and immediately flushes it — two `updateSessionRules` round trips
for one refresh (the final batch flush then has nothing left to write). -/
theorem processUpdate_two_store_writes :
    (processUpdateRun [] newCfgC3 { auth := [], domainsToCheck := [] } 50000000
        (fun _ => []) wC3).map (fun p => (p.2.storeWrites, p.2.store)) =
      .ok (2, ([] : List Rule)) :=
  rfl

end KeepItFocused
